import Mathlib

/-!
# Verification of the Gatekeeper key-lifecycle actions (`src/app/actions.ts`)

Shallow embedding of the server actions of the license-key issuance system:
the MongoDB collections `keys`, `users` and `prices` are modelled as Lean
lists of records, and each exported action becomes a pure Lean function from
the relevant store(s) (plus the ambient clock) to a result and the updated
store(s).

Conventions of the embedding:
* The server clock and time zone are fixed to UTC.  An instant (a JS `Date`)
  is a number of milliseconds `t : Nat`; an ISO calendar-date string
  (`formatISO(d, { representation: 'date' })`) is the day index
  `dateOf t = t / msPerDay`; parsing a date-only string back into a `Date`
  (`new Date("YYYY-MM-DD")`) yields midnight UTC of that day, i.e. the
  instant `d * msPerDay`.  `date-fns` `addDays` adds whole days to an
  instant.
* Mongo `ObjectId`s are modelled as `Nat`.
* JS numbers used for money are modelled as exact rationals `Rat` (the
  accounting claims are about the arithmetic the code performs, not about
  binary floating-point rounding).
* `updateOne` mirrors MongoDB semantics: it touches at most the first
  matching document and reports `matchedCount`/`modifiedCount`, where
  `modifiedCount` counts documents actually changed (a `$set` writing the
  value already present does not modify).
* `randomBytes(16).toString('hex').toUpperCase()` is modelled by an oracle
  `rand : Nat → String` giving the suffix drawn at iteration `i`.
-/

/-- Milliseconds per day; the granularity of the `Date`/calendar-date embedding. -/
def msPerDay : Nat := 86400000

/-- `formatISO(t, { representation: 'date' })` under a UTC clock: the calendar
day index of instant `t`. -/
def dateOf (t : Nat) : Nat := t / msPerDay

/-- `new Date("YYYY-MM-DD")` for the date-only string of day `d`: midnight UTC
of that day, as an instant in milliseconds. -/
def dateToMs (d : Nat) : Nat := d * msPerDay

/-- `date-fns` `addDays now n`: the instant `n` whole days after `now`. -/
def addDays (t : Nat) (n : Nat) : Nat := t + n * msPerDay

/-! ## Generic MongoDB collection operations -/

/-- Outcome of a Mongo `updateOne`: the counts it reports and the collection
after the update. -/
structure UpdateResult (α : Type) where
  matchedCount : Nat
  modifiedCount : Nat
  store : List α
deriving Repr

/-- Mongo `collection.updateOne(filter, update)`: applies `f` to the first
document matching `p` (if any).  `modifiedCount` is 1 only when the matched
document actually changed. -/
def updateOne [DecidableEq α] (store : List α) (p : α → Bool) (f : α → α) :
    UpdateResult α :=
  match store with
  | [] => ⟨0, 0, []⟩
  | r :: rs =>
    if p r then
      ⟨1, if f r = r then 0 else 1, f r :: rs⟩
    else
      let u := updateOne rs p f
      ⟨u.matchedCount, u.modifiedCount, r :: u.store⟩

/-- Mongo `collection.deleteMany(filter)`: removes every document matching
`p`; returns `deletedCount` and the remaining collection. -/
def deleteMany (store : List α) (p : α → Bool) : Nat × List α :=
  ((store.filter p).length, store.filter (fun a => !(p a)))

/-- Mongo `collection.deleteOne(filter)`: removes the first document matching
`p` (if any); returns `deletedCount` and the remaining collection. -/
def deleteOne : List α → (α → Bool) → Nat × List α
  | [], _ => (0, [])
  | r :: rs, p =>
    if p r then (1, rs)
    else
      let u := deleteOne rs p
      (u.1, r :: u.2)

/-! ## Document types -/

/-- A document of the `keys` collection, as inserted by `generateKeys` and
mutated by `activateKey`.  `expires` and `activationDate` hold day indices of
ISO date-only strings, or `none` for `null`. -/
structure KeyRecord where
  key : String
  /-- the source's `prefix` field (`prefix` is reserved in Lean) -/
  keyPrefix : String
  validityDays : Nat
  price : Rat
  expires : Option Nat
  activationDate : Option Nat
  isActive : Bool
  createdAt : Nat
  createdBy : String
deriving DecidableEq, Repr

/-- A document of the `users` collection (a moderator account). -/
structure UserRecord where
  id : Nat
  username : String
  password : String
  role : String
  debt : Rat
  createdAt : Nat
deriving DecidableEq, Repr

/-- A document of the `prices` collection: one price tier. -/
structure PriceRecord where
  validityDays : Nat
  price : Rat
deriving DecidableEq, Repr

/-! ## `verifyKey` -/

/-- Return value of `verifyKey`: `{ valid, message }` plus the `expires` field
present in the success case. -/
structure VerifyResult where
  valid : Bool
  message : String
  expires : Option Nat
deriving DecidableEq, Repr

/-- `verifyKey(key)` at current instant `now`: looks the key up, rejects
missing or unactivated keys, otherwise compares `now` with
`new Date(keyData.expires)` — midnight UTC of the stored expiration day. -/
def verifyKey (store : List KeyRecord) (k : String) (now : Nat) : VerifyResult :=
  match store.find? (fun r => r.key = k) with
  | none => ⟨false, "Key not found.", none⟩
  | some keyData =>
    if !keyData.isActive || keyData.expires = none then
      ⟨false, "Key not activated.", none⟩
    else
      match keyData.expires with
      | none => ⟨false, "Key not activated.", none⟩
      | some e =>
        if now > dateToMs e then ⟨false, "Key has expired.", none⟩
        else ⟨true, "Key is active.", some e⟩

/-! ## `activateKey`

The action is split at its `await` boundaries exactly as the source runs:
a read (`findOne`), a pure check of the document it returned, and a write
(`updateOne` whose filter is the key string only).  `activateKey` is the
sequential composition; the split pieces also let the interleaving of two
concurrent calls be expressed. -/

/-- Return value of `activateKey`. -/
structure ActivateResult where
  success : Bool
  message : String
  expires : Option Nat
deriving DecidableEq, Repr

/-- What the check of the document fetched by `findOne` decides. -/
inductive ActivateCheck where
  | notFound
  | alreadyActive
  | proceed (validityDays : Nat)
deriving DecidableEq, Repr

/-- The `findOne({ key })` read step of `activateKey`. -/
def activateRead (store : List KeyRecord) (k : String) : Option KeyRecord :=
  store.find? (fun r => r.key = k)

/-- The pure branch structure of `activateKey` on the fetched document. -/
def activateCheck : Option KeyRecord → ActivateCheck
  | none => .notFound
  | some keyData =>
    if keyData.isActive then .alreadyActive else .proceed keyData.validityDays

/-- The write step of `activateKey`: computes the activation date, the clamped
validity and the expiration date from `now`, then issues
`updateOne({ key }, { $set: { isActive, activationDate, expires } })` — the
filter matches on the key string alone. -/
def activateWrite (store : List KeyRecord) (k : String) (now : Nat)
    (validityDays : Nat) : ActivateResult × List KeyRecord :=
  let activationDate := dateOf now
  let validity := if validityDays ≥ 36500 then 36500 else validityDays
  let expiresDay := dateOf (addDays now validity)
  let u := updateOne store (fun r => r.key = k)
    (fun r => { r with isActive := true, activationDate := some activationDate,
                       expires := some expiresDay })
  (⟨true, "Key activated successfully.", some expiresDay⟩, u.store)

/-- `activateKey(key)` at current instant `now`: read, check, then write. -/
def activateKey (store : List KeyRecord) (k : String) (now : Nat) :
    ActivateResult × List KeyRecord :=
  match activateCheck (activateRead store k) with
  | .notFound => (⟨false, "Key not found.", none⟩, store)
  | .alreadyActive => (⟨false, "Key already activated.", none⟩, store)
  | .proceed v => activateWrite store k now v

/-- Two concurrent `activateKey` calls on the same key under the interleaving
where both reads complete before either write: A reads, B reads, then A
finishes (check + write), then B finishes on the store A left behind.
Each caller runs exactly the phases of `activateKey`. -/
def racedActivations (store : List KeyRecord) (k : String) (nowA nowB : Nat) :
    ActivateResult × ActivateResult × List KeyRecord :=
  let cA := activateCheck (activateRead store k)
  let cB := activateCheck (activateRead store k)
  let stepA : ActivateResult × List KeyRecord :=
    match cA with
    | .notFound => (⟨false, "Key not found.", none⟩, store)
    | .alreadyActive => (⟨false, "Key already activated.", none⟩, store)
    | .proceed v => activateWrite store k nowA v
  let stepB : ActivateResult × List KeyRecord :=
    match cB with
    | .notFound => (⟨false, "Key not found.", none⟩, stepA.2)
    | .alreadyActive => (⟨false, "Key already activated.", none⟩, stepA.2)
    | .proceed v => activateWrite stepA.2 k nowB v
  (stepA.1, stepB.1, stepB.2)

example :
    verifyKey [⟨"A-1", "A", 30, 0, some 0, some 0, true, 0, "admin"⟩] "A-1" 1 =
      ⟨false, "Key has expired.", none⟩ := by rfl

example :
    (activateKey [⟨"A-1", "A", 30, 0, none, none, false, 0, "admin"⟩] "A-1" 0).1 =
      ⟨true, "Key activated successfully.", some 30⟩ := by rfl

/-! ## Moderator management: `clearModeratorDebt`, `deleteModerator` -/

/-- The `{ success, message }` shape returned by the moderator- and
key-management actions. -/
structure ActionResult where
  success : Bool
  message : String
deriving DecidableEq, Repr

/-- `clearModeratorDebt(id)`: `updateOne({ _id }, { $set: { debt: 0 } })`,
reporting success exactly when `modifiedCount === 1`. -/
def clearModeratorDebt (users : List UserRecord) (id : Nat) :
    ActionResult × List UserRecord :=
  let result := updateOne users (fun u => u.id = id) (fun u => { u with debt := 0 })
  if result.modifiedCount = 1 then
    (⟨true, "Debt cleared successfully."⟩, result.store)
  else
    (⟨false, "Failed to clear debt."⟩, result.store)

/-- `deleteModerator(id)`: looks the moderator up, deletes every key whose
`createdBy` equals their username (`deleteMany`), then deletes the moderator
document itself (`deleteOne({ _id })`). -/
def deleteModerator (users : List UserRecord) (keys : List KeyRecord) (id : Nat) :
    ActionResult × List UserRecord × List KeyRecord :=
  match users.find? (fun u => u.id = id) with
  | none => (⟨false, "Moderator not found."⟩, users, keys)
  | some moderatorToDelete =>
    let keys' := (deleteMany keys (fun r => r.createdBy = moderatorToDelete.username)).2
    let result := deleteOne users (fun u => u.id = id)
    if result.1 = 1 then
      (⟨true, "Moderator \"" ++ moderatorToDelete.username ++
              "\" and all their keys have been deleted."⟩, result.2, keys')
    else
      (⟨false, "Failed to delete moderator after cleaning up keys."⟩, result.2, keys')

/-! ## Key deletion -/

/-- `deleteKey(key)`: `deleteOne({ key })`, success iff one document went. -/
def deleteKey (keys : List KeyRecord) (k : String) : ActionResult × List KeyRecord :=
  let result := deleteOne keys (fun r => r.key = k)
  if result.1 = 1 then (⟨true, "Key " ++ k ++ " deleted."⟩, result.2)
  else (⟨false, "Key not found."⟩, result.2)

/-- `deleteKeysByPrefix(prefix)`: `deleteMany({ prefix })` — the filter is
exact equality on the `prefix` field — then an unconditional success result
whose message carries `deletedCount`. -/
def deleteKeysByPrefix (keys : List KeyRecord) (p : String) :
    ActionResult × List KeyRecord :=
  let result := deleteMany keys (fun r => r.keyPrefix = p)
  (⟨true, toString result.1 ++ " keys with prefix \"" ++ p ++ "\" deleted."⟩,
   result.2)

/-! ## `generateKeys`

The action runs in two store-mutating stages, in this order: the moderator
charge (price lookup plus `$inc` of `debt`) and then the `insertMany` of the
batch of new key documents.  `generateKeysRun` exposes the stage boundary via
an `insertSucceeds` flag: when the insert fails, the exception propagates out
of the action (there is no catch, and no rollback of the charge), leaving the
stores as they were right after the charge. -/

/-- The identity the dashboard passes to `generateKeys` (the parsed session
cookie): role, username and — for moderators — the account id. -/
structure GenUser where
  role : String
  username : String
  userId : Option Nat
deriving DecidableEq, Repr

/-- One element of the `keys` list `generateKeys` returns (for the download
file): key string, validity and the charged price. -/
structure GeneratedKey where
  key : String
  validityDays : Nat
  price : Rat
deriving DecidableEq, Repr

/-- `findOne({ validityDays })` on the `prices` collection, defaulting to 0
when the tier is absent: `priceDoc ? priceDoc.price : 0`. -/
def priceFor (prices : List PriceRecord) (validityDays : Nat) : Rat :=
  match prices.find? (fun p => p.validityDays = validityDays) with
  | some priceDoc => priceDoc.price
  | none => 0

/-- The charge stage of `generateKeys`: for a moderator, look the unit price
up, compute `totalCost = count * price` and `$inc` the requester's `debt` by
it (when a `userId` is present); otherwise charge nothing.  Returns the unit
price used and the updated `users` collection. -/
def generateKeysCharge (users : List UserRecord) (prices : List PriceRecord)
    (count validityDays : Nat) (user : GenUser) : Rat × List UserRecord :=
  if user.role = "moderator" then
    let price := priceFor prices validityDays
    let totalCost : Rat := (count : Rat) * price
    match user.userId with
    | some uid =>
      (price, (updateOne users (fun u => u.id = uid)
                 (fun u => { u with debt := u.debt + totalCost })).store)
    | none => (price, users)
  else
    (0, users)

/-- The batch of key documents `generateKeys` builds: for each `i < count`,
key string `prefix ++ "-" ++ rand i` (the random hex suffix modelled by the
oracle `rand`), inactive, with the charged price recorded for moderators and
0 otherwise. -/
def generateKeysBatch (keyPrefix : String) (count validityDays : Nat)
    (price : Rat) (user : GenUser) (now : Nat) (rand : Nat → String) :
    List KeyRecord :=
  (List.range count).map (fun i =>
    { key := keyPrefix ++ "-" ++ rand i
      keyPrefix := keyPrefix
      validityDays := validityDays
      price := if user.role = "moderator" then price else 0
      expires := none
      activationDate := none
      isActive := false
      createdAt := now
      createdBy := user.username })

/-- One run of `generateKeys`, with the success of the final `insertMany`
made explicit.  The charge stage always runs first; on insert failure the
exception propagates (`Except.error`) with the charge already applied and no
keys inserted. -/
def generateKeysRun (insertSucceeds : Bool) (keys : List KeyRecord)
    (users : List UserRecord) (prices : List PriceRecord) (keyPrefix : String)
    (count validityDays : Nat) (user : GenUser) (now : Nat)
    (rand : Nat → String) :
    Except Unit (List GeneratedKey) × List KeyRecord × List UserRecord :=
  let charge := generateKeysCharge users prices count validityDays user
  let batch := generateKeysBatch keyPrefix count validityDays charge.1 user now rand
  if insertSucceeds then
    (.ok (batch.map (fun r => ⟨r.key, r.validityDays, r.price⟩)),
     keys ++ batch, charge.2)
  else
    (.error (), keys, charge.2)

/-- `generateKeys(prefix, count, validityDays, user)`: the normal run, where
`insertMany` succeeds. -/
def generateKeys (keys : List KeyRecord) (users : List UserRecord)
    (prices : List PriceRecord) (keyPrefix : String) (count validityDays : Nat)
    (user : GenUser) (now : Nat) (rand : Nat → String) :
    Except Unit (List GeneratedKey) × List KeyRecord × List UserRecord :=
  generateKeysRun true keys users prices keyPrefix count validityDays user now rand

/-! ## `updateAllPrices`

The action walks the form entries; for a field named `price-<n>` it parses
the tier from the field name (`parseInt(key.split('-')[1], 10)`) and the
price from the field value (`parseFloat(value)`), skips the entry when either
parse is `NaN` or the price is negative, and otherwise queues an
`updateOne(..., { upsert: true })`; the queued operations are applied in
order by one `bulkWrite`.  The embedding takes each entry together with its
two parse results (`none` models `NaN`); the untouched field name is kept so
the `startsWith('price-')` test remains the code's. -/

/-- The `{ success, message }` shape `updateAllPrices` returns. -/
structure PriceState where
  success : Bool
  message : String
deriving DecidableEq, Repr

/-- A form entry as `updateAllPrices` sees it: the field name, the tier
parsed from the name (`none` = `NaN`) and the price parsed from the value
(`none` = `NaN`). -/
structure PriceFormEntry where
  name : String
  parsedValidity : Option Nat
  parsedPrice : Option Rat
deriving DecidableEq, Repr

/-- `s.startsWith(pre)` of JS / `String.startsWith` of Lean, computed on the
underlying character lists (so that the kernel can evaluate it on concrete
field names). -/
def strStartsWith (s pre : String) : Bool :=
  pre.data.isPrefixOf s.data

/-- The per-entry decision of the `updateAllPrices` loop: the upsert
operation the entry contributes, or `none` when it is skipped (name not of
the form `price-*`, a `NaN` parse, or a negative price). -/
def entryOp (e : PriceFormEntry) : Option (Nat × Rat) :=
  if strStartsWith e.name "price-" then
    match e.parsedValidity, e.parsedPrice with
    | some validityDays, some price =>
      if price < 0 then none else some (validityDays, price)
    | _, _ => none
  else
    none

/-- One queued operation of the `bulkWrite`:
`updateOne({ filter: { validityDays }, update: { $set: { price } }, upsert: true })` —
overwrite the price of the first document of the tier, or insert a new tier
document when none exists. -/
def upsertPrice (prices : List PriceRecord) (validityDays : Nat) (price : Rat) :
    List PriceRecord :=
  match prices.find? (fun r => r.validityDays = validityDays) with
  | some _ =>
    (updateOne prices (fun r => r.validityDays = validityDays)
       (fun r => { r with price := price })).store
  | none => prices ++ [⟨validityDays, price⟩]

/-- `updateAllPrices(formData)`: build the operation list, apply it in order,
and return the fixed success message. -/
def updateAllPrices (prices : List PriceRecord) (entries : List PriceFormEntry) :
    PriceState × List PriceRecord :=
  let operations := entries.filterMap entryOp
  let prices' := operations.foldl (fun ps op => upsertPrice ps op.1 op.2) prices
  (⟨true, "Prices updated successfully."⟩, prices')

/-- The number of operations `updateAllPrices` queues and applies for the
given entries (the length of its `operations` array).  The action computes
this list but its return value does not report the count. -/
def updateAllPricesApplied (entries : List PriceFormEntry) : Nat :=
  (entries.filterMap entryOp).length

/-- Price lookup on the `prices` collection, as `getPrices`/`generateKeys`
read it: the price of the first document of the tier, if any. -/
def lookupPrice (prices : List PriceRecord) (validityDays : Nat) : Option Rat :=
  (prices.find? (fun r => r.validityDays = validityDays)).map (fun r => r.price)

/-- The price the entry list assigns to tier `d`, per the spec's upsert
semantics: the price of the last non-skipped entry targeting `d`, if any. -/
def lastValidPriceFor (entries : List PriceFormEntry) (d : Nat) : Option Rat :=
  (entries.filterMap entryOp).foldl
    (fun acc op => if op.1 = d then some op.2 else acc) none

example :
    (clearModeratorDebt [⟨1, "m", "pw", "moderator", 0, 0⟩] 1).1.success = false := by
  rfl

example :
    (clearModeratorDebt [⟨1, "m", "pw", "moderator", 5, 0⟩] 1).1.success = true := by
  rfl

/-! ## Lemmas about the store primitives -/

theorem updateOne_of_find?_none [DecidableEq α] (store : List α) (p : α → Bool)
    (f : α → α) (h : store.find? p = none) : updateOne store p f = ⟨0, 0, store⟩ := by
  induction store with
  | nil => rfl
  | cons r rs ih =>
    cases hp : p r with
    | true => rw [List.find?_cons_of_pos rs hp] at h; cases h
    | false =>
      rw [List.find?_cons_of_neg rs (by simp [hp])] at h
      simp only [updateOne, hp, Bool.false_eq_true, if_false, ih h]

theorem updateOne_find?_of_find?_some [DecidableEq α] (store : List α)
    (p : α → Bool) (f : α → α) (hf : ∀ a, p a = true → p (f a) = true) (u : α)
    (h : store.find? p = some u) :
    (updateOne store p f).store.find? p = some (f u) := by
  induction store with
  | nil => cases h
  | cons r rs ih =>
    cases hp : p r with
    | true =>
      rw [List.find?_cons_of_pos rs hp] at h
      cases h
      simp only [updateOne, hp, if_true]
      exact List.find?_cons_of_pos rs (hf u hp)
    | false =>
      rw [List.find?_cons_of_neg rs (by simp [hp])] at h
      simp only [updateOne, hp, Bool.false_eq_true, if_false]
      rw [List.find?_cons_of_neg _ (by simp [hp])]
      exact ih h

theorem updateOne_modifiedCount_of_find?_some [DecidableEq α] (store : List α)
    (p : α → Bool) (f : α → α) (u : α) (h : store.find? p = some u) :
    (updateOne store p f).modifiedCount = if f u = u then 0 else 1 := by
  induction store with
  | nil => cases h
  | cons r rs ih =>
    cases hp : p r with
    | true =>
      rw [List.find?_cons_of_pos rs hp] at h
      cases h
      simp only [updateOne, hp, if_true]
    | false =>
      rw [List.find?_cons_of_neg rs (by simp [hp])] at h
      simp only [updateOne, hp, Bool.false_eq_true, if_false]
      exact ih h

theorem updateOne_find?_of_disjoint [DecidableEq α] (store : List α)
    (p q : α → Bool) (f : α → α) (hq : ∀ a, q (f a) = q a)
    (hpq : ∀ a, p a = true → q a = false) :
    (updateOne store p f).store.find? q = store.find? q := by
  induction store with
  | nil => rfl
  | cons r rs ih =>
    cases hp : p r with
    | true =>
      simp only [updateOne, hp, if_true]
      rw [List.find?_cons_of_neg rs (by simp [hq r, hpq r hp]),
          List.find?_cons_of_neg rs (by simp [hpq r hp])]
    | false =>
      simp only [updateOne, hp, Bool.false_eq_true, if_false]
      cases hqr : q r with
      | true =>
        rw [List.find?_cons_of_pos _ hqr, List.find?_cons_of_pos _ hqr]
      | false =>
        rw [List.find?_cons_of_neg _ (by simp [hqr]),
            List.find?_cons_of_neg _ (by simp [hqr])]
        exact ih

theorem deleteOne_count_of_find?_some (store : List α) (p : α → Bool) (u : α)
    (h : store.find? p = some u) : (deleteOne store p).1 = 1 := by
  induction store with
  | nil => cases h
  | cons r rs ih =>
    cases hp : p r with
    | true => simp only [deleteOne, hp, if_true]
    | false =>
      rw [List.find?_cons_of_neg rs (by simp [hp])] at h
      simp only [deleteOne, hp, Bool.false_eq_true, if_false]
      exact ih h

theorem filter_not_eq_self_of_countP_zero (store : List α) (p : α → Bool)
    (h : store.countP p = 0) : store.filter (fun a => !(p a)) = store := by
  rw [List.filter_eq_self]
  intro a ha
  have := List.countP_eq_zero.mp h a ha
  simp only [Bool.not_eq_true'] at this ⊢
  simp [this]

theorem deleteOne_store_of_countP_one (store : List α) (p : α → Bool)
    (h : store.countP p = 1) :
    (deleteOne store p).2 = store.filter (fun a => !(p a)) := by
  induction store with
  | nil => rfl
  | cons r rs ih =>
    rw [List.countP_cons] at h
    cases hp : p r with
    | true =>
      rw [hp] at h
      simp only [if_true] at h
      have hrs : rs.countP p = 0 := by omega
      simp only [deleteOne, hp, if_true, List.filter_cons, Bool.not_true,
        Bool.false_eq_true, if_false]
      exact (filter_not_eq_self_of_countP_zero rs p hrs).symm
    | false =>
      rw [hp] at h
      simp only [Bool.false_eq_true, if_false, Nat.add_zero] at h
      simp only [deleteOne, hp, Bool.false_eq_true, if_false, List.filter_cons,
        Bool.not_false, if_true]
      rw [ih h]

theorem dateOf_addDays (t v : Nat) : dateOf (addDays t v) = dateOf t + v := by
  unfold dateOf addDays
  exact Nat.add_mul_div_right t v (by norm_num [msPerDay])

theorem validity_clamp_eq_min (v : Nat) :
    (if v ≥ 36500 then 36500 else v) = min v 36500 := by
  split <;> omega

theorem userRecord_set_debt_zero_eq (u : UserRecord) :
    ({ u with debt := 0 } = u) ↔ u.debt = 0 := by
  cases u
  simp [UserRecord.mk.injEq, eq_comm]

/-! ## Claim theorems -/

/-- C1 (counterexample): the claim says verification on the `expires` date
itself returns valid (inclusive day-granularity boundary).  The code compares
the current instant with midnight UTC of the `expires` day: for a key whose
`expires` day is 0 and a clock reading of 1 ms — still day 0, the `expires`
date itself — `verifyKey` already answers "Key has expired.". -/
theorem c1_day_granularity_counterexample :
    verifyKey [⟨"A-1", "A", 30, 0, some 0, some 0, true, 0, "admin"⟩] "A-1" 1 =
      ⟨false, "Key has expired.", none⟩
    ∧ dateOf 1 = 0 := by
  exact ⟨rfl, rfl⟩

/-- C1 (amended): for an activated key with a stored `expires` day,
verification is valid exactly when the current instant is at or before
midnight UTC at the start of the `expires` day (`dateToMs`), and returns the
"Key has expired." outcome for every instant strictly after that — the
comparison is instant-versus-start-of-expiry-day, not day-granularity. -/
theorem c1_verify_expiry_boundary (store : List KeyRecord) (k : String)
    (now : Nat) (kd : KeyRecord) (e : Nat)
    (hfind : store.find? (fun r => r.key = k) = some kd)
    (hactive : kd.isActive = true) (hexp : kd.expires = some e) :
    (now ≤ dateToMs e → verifyKey store k now = ⟨true, "Key is active.", some e⟩)
    ∧ (dateToMs e < now →
        verifyKey store k now = ⟨false, "Key has expired.", none⟩) := by
  unfold verifyKey
  rw [hfind]
  simp only [hactive, hexp, Bool.not_true, Bool.false_or]
  constructor
  · intro h
    rw [if_neg (by simp), if_neg (by omega)]
  · intro h
    rw [if_neg (by simp), if_pos (by omega)]

/-- C1 (witness for the amended theorem): a key expiring on day 1, checked at
exactly midnight UTC of day 1, is still valid. -/
theorem c1_verify_expiry_boundary_witness :
    verifyKey [⟨"A-1", "A", 30, 0, some 1, some 0, true, 0, "admin"⟩] "A-1"
      86400000 = ⟨true, "Key is active.", some 1⟩ :=
  (c1_verify_expiry_boundary
    [⟨"A-1", "A", 30, 0, some 1, some 0, true, 0, "admin"⟩] "A-1" 86400000
    ⟨"A-1", "A", 30, 0, some 1, some 0, true, 0, "admin"⟩ 1 rfl rfl rfl).1
    (by decide)

/-- C2: activating a key whose record has `isActive == true` fails with the
"Key already activated." outcome (`success = false`) and leaves the key store
— in particular the record's `expires` and `activationDate` — unchanged. -/
theorem c2_activate_already_active (store : List KeyRecord) (k : String)
    (now : Nat) (kd : KeyRecord)
    (hfind : store.find? (fun r => r.key = k) = some kd)
    (hactive : kd.isActive = true) :
    activateKey store k now = (⟨false, "Key already activated.", none⟩, store) := by
  unfold activateKey activateRead
  rw [hfind]
  simp only [activateCheck, hactive, if_true]

/-- C2 (witness): a concrete already-active key is rejected and the store is
returned as it was. -/
theorem c2_activate_already_active_witness :
    activateKey [⟨"A-1", "A", 30, 0, some 30, some 0, true, 0, "admin"⟩] "A-1" 7 =
      (⟨false, "Key already activated.", none⟩,
       [⟨"A-1", "A", 30, 0, some 30, some 0, true, 0, "admin"⟩]) :=
  c2_activate_already_active _ "A-1" 7 _ rfl rfl

/-- C7: the claim requires the activation write to be a conditional
match-then-set so that two simultaneous activations yield exactly one
success.  The code reads (`findOne`), checks in memory, then issues an
`updateOne` filtered by the key string alone; under the interleaving where
both callers read before either writes, both calls return success — the key
is double-activated.  This exhibits the race on a concrete inactive key. -/
theorem c7_race_both_activations_succeed :
    ((racedActivations [⟨"K-1", "K", 30, 0, none, none, false, 0, "admin"⟩]
        "K-1" 0 0).1.success = true)
    ∧ ((racedActivations [⟨"K-1", "K", 30, 0, none, none, false, 0, "admin"⟩]
        "K-1" 0 0).2.1.success = true) := by
  exact ⟨rfl, rfl⟩

/-- C3 (counterexample): the claim says `clearDebt` reports failure exactly
when the account does not exist.  For an existing moderator whose debt is
already 0, the `$set { debt: 0 }` matches but modifies nothing, so
`modifiedCount` is 0 and the action reports failure although the account
exists. -/
theorem c3_clear_debt_counterexample :
    ([⟨1, "m", "pw", "moderator", 0, 0⟩] : List UserRecord).find?
        (fun x => x.id = 1) = some ⟨1, "m", "pw", "moderator", 0, 0⟩
    ∧ (clearModeratorDebt [⟨1, "m", "pw", "moderator", 0, 0⟩] 1).1.success =
        false := by
  exact ⟨rfl, rfl⟩

/-- C3 (amended): `clearModeratorDebt` always leaves an existing account's
stored debt at exactly 0, but reports success exactly when the account exists
with a nonzero prior debt; it reports failure both when the account does not
exist (the store is then unchanged) and when the debt was already 0. -/
theorem c3_clear_debt_semantics (users : List UserRecord) (id : Nat) :
    (∀ u, users.find? (fun x => x.id = id) = some u →
      (clearModeratorDebt users id).2.find? (fun x => x.id = id) =
          some { u with debt := 0 }
      ∧ ((clearModeratorDebt users id).1.success = true ↔ u.debt ≠ 0))
    ∧ (users.find? (fun x => x.id = id) = none →
      (clearModeratorDebt users id).1.success = false
      ∧ (clearModeratorDebt users id).2 = users) := by
  constructor
  · intro u hu
    have hfind := updateOne_find?_of_find?_some users (fun x => x.id = id)
      (fun x => { x with debt := 0 }) (fun a ha => ha) u hu
    have hmc := updateOne_modifiedCount_of_find?_some users (fun x => x.id = id)
      (fun x => { x with debt := 0 }) u hu
    by_cases hd : u.debt = 0
    · rw [if_pos ((userRecord_set_debt_zero_eq u).mpr hd)] at hmc
      simp only [clearModeratorDebt, hmc]
      norm_num
      exact ⟨hfind, hd⟩
    · rw [if_neg (fun hc => hd ((userRecord_set_debt_zero_eq u).mp hc))] at hmc
      simp only [clearModeratorDebt, hmc]
      norm_num
      exact ⟨hfind, hd⟩
  · intro hnone
    simp only [clearModeratorDebt, updateOne_of_find?_none users _ _ hnone]
    norm_num

/-- C3 (witness for the amended theorem): clearing a moderator with debt 5
zeroes the stored debt and reports success. -/
theorem c3_clear_debt_semantics_witness :
    (clearModeratorDebt [⟨1, "m", "pw", "moderator", 5, 0⟩] 1).2.find?
        (fun x => x.id = 1) =
      some { (⟨1, "m", "pw", "moderator", 5, 0⟩ : UserRecord) with debt := 0 }
    ∧ ((clearModeratorDebt [⟨1, "m", "pw", "moderator", 5, 0⟩] 1).1.success =
        true ↔ ((⟨1, "m", "pw", "moderator", 5, 0⟩ : UserRecord)).debt ≠ 0) :=
  (c3_clear_debt_semantics [⟨1, "m", "pw", "moderator", 5, 0⟩] 1).1
    ⟨1, "m", "pw", "moderator", 5, 0⟩ rfl

/-- C4: activating an existing inactive key at instant `now` (calendar date
`D = dateOf now`) reports success with expiration day
`D + min(validityDays, 36500)`, and stores `isActive = true`,
`activationDate = D` and `expires = D + min(validityDays, 36500)` on the
record; in particular `validityDays = 30` yields `D + 30` and any
`validityDays ≥ 36500` yields `D + 36500`. -/
theorem c4_activation_sets_expiry (store : List KeyRecord) (k : String)
    (now : Nat) (kd : KeyRecord)
    (hfind : store.find? (fun r => r.key = k) = some kd)
    (hinactive : kd.isActive = false) :
    (activateKey store k now).1 =
      ⟨true, "Key activated successfully.",
       some (dateOf now + min kd.validityDays 36500)⟩
    ∧ (activateKey store k now).2.find? (fun r => r.key = k) =
      some { kd with isActive := true, activationDate := some (dateOf now),
                     expires := some (dateOf now + min kd.validityDays 36500) } := by
  unfold activateKey activateRead
  rw [hfind]
  simp only [activateCheck, hinactive, Bool.false_eq_true, if_false]
  simp only [activateWrite, validity_clamp_eq_min, dateOf_addDays]
  exact ⟨by trivial,
    updateOne_find?_of_find?_some store (fun r => r.key = k)
      (fun r => { r with isActive := true,
                         activationDate := some (dateOf now),
                         expires := some (dateOf now + min kd.validityDays 36500) })
      (fun a ha => ha) kd hfind⟩

/-- C4 (witness): a key with `validityDays = 30` activated just after
midnight of day 1 gets expiration day `1 + 30 = 31`. -/
theorem c4_activation_sets_expiry_witness :
    (activateKey [⟨"A-1", "A", 30, 0, none, none, false, 0, "admin"⟩] "A-1"
        86400005).1 =
      ⟨true, "Key activated successfully.",
       some (dateOf 86400005 + min 30 36500)⟩
    ∧ (activateKey [⟨"A-1", "A", 30, 0, none, none, false, 0, "admin"⟩] "A-1"
        86400005).2.find? (fun r => r.key = "A-1") =
      some { (⟨"A-1", "A", 30, 0, none, none, false, 0, "admin"⟩ : KeyRecord) with
             isActive := true, activationDate := some (dateOf 86400005),
             expires := some (dateOf 86400005 + min 30 36500) } :=
  c4_activation_sets_expiry
    [⟨"A-1", "A", 30, 0, none, none, false, 0, "admin"⟩] "A-1" 86400005
    ⟨"A-1", "A", 30, 0, none, none, false, 0, "admin"⟩ rfl rfl

/-- C5: in `generateKeys`, a moderator requester (with a stored account) is
charged the configured tier price — the account's debt grows by exactly
`count * priceFor(validityDays)` (0 when the tier is absent) and that unit
price is recorded on every generated key record; an admin requester gets
price 0 recorded on every generated key and the users store is untouched,
regardless of the pricing table. -/
theorem c5_generate_pricing (keys : List KeyRecord) (users : List UserRecord)
    (prices : List PriceRecord) (kp : String) (count validityDays : Nat)
    (user : GenUser) (now : Nat) (rand : Nat → String) :
    (∀ uid u, user.role = "moderator" → user.userId = some uid →
      users.find? (fun x => x.id = uid) = some u →
      (generateKeys keys users prices kp count validityDays user now
          rand).2.2.find? (fun x => x.id = uid) =
        some { u with
               debt := u.debt + (count : Rat) * priceFor prices validityDays }
      ∧ ∀ r ∈ (generateKeys keys users prices kp count validityDays user now
          rand).2.1, r ∈ keys ∨ r.price = priceFor prices validityDays)
    ∧ (user.role = "admin" →
      (generateKeys keys users prices kp count validityDays user now
          rand).2.2 = users
      ∧ ∀ r ∈ (generateKeys keys users prices kp count validityDays user now
          rand).2.1, r ∈ keys ∨ r.price = 0) := by
  constructor
  · intro uid u hrole huid hu
    have hcharge : generateKeysCharge users prices count validityDays user =
        (priceFor prices validityDays,
         (updateOne users (fun x => x.id = uid)
            (fun x => { x with
              debt := x.debt + (count : Rat) * priceFor prices validityDays })).store) := by
      unfold generateKeysCharge
      rw [if_pos hrole, huid]
    constructor
    · simp only [generateKeys, generateKeysRun, hcharge]
      exact updateOne_find?_of_find?_some users (fun x => x.id = uid)
        (fun x => { x with
          debt := x.debt + (count : Rat) * priceFor prices validityDays })
        (fun a ha => ha) u hu
    · intro r hr
      simp only [generateKeys, generateKeysRun, hcharge, if_true] at hr
      rcases List.mem_append.mp hr with h | h
      · exact Or.inl h
      · right
        simp only [generateKeysBatch, List.mem_map] at h
        obtain ⟨i, _, rfl⟩ := h
        simp [hrole]
  · intro hrole
    have hne : ¬(user.role = "moderator") := by rw [hrole]; decide
    have hcharge : generateKeysCharge users prices count validityDays user =
        (0, users) := by
      unfold generateKeysCharge
      rw [if_neg hne]
    constructor
    · simp [generateKeys, generateKeysRun, hcharge]
    · intro r hr
      simp only [generateKeys, generateKeysRun, hcharge, if_true] at hr
      rcases List.mem_append.mp hr with h | h
      · exact Or.inl h
      · right
        simp only [generateKeysBatch, List.mem_map] at h
        obtain ⟨i, _, rfl⟩ := h
        simp [if_neg hne]

/-- C5 (witness): a moderator with empty ledger generating 5 keys in a tier
priced 5/2 ends with debt `0 + 5 * (5/2)` and the tier price recorded on
every generated key. -/
theorem c5_generate_pricing_witness :
    (generateKeys [] [⟨1, "m", "pw", "moderator", 0, 0⟩] [⟨30, 5/2⟩] "P" 5 30
        ⟨"moderator", "m", some 1⟩ 0 (fun _ => "X")).2.2.find?
        (fun x => x.id = 1) =
      some { (⟨1, "m", "pw", "moderator", 0, 0⟩ : UserRecord) with
             debt := (⟨1, "m", "pw", "moderator", 0, 0⟩ : UserRecord).debt +
               ((5 : Nat) : Rat) * priceFor [⟨30, 5/2⟩] 30 }
    ∧ ∀ r ∈ (generateKeys [] [⟨1, "m", "pw", "moderator", 0, 0⟩] [⟨30, 5/2⟩]
        "P" 5 30 ⟨"moderator", "m", some 1⟩ 0 (fun _ => "X")).2.1,
        r ∈ ([] : List KeyRecord) ∨ r.price = priceFor [⟨30, 5/2⟩] 30 :=
  (c5_generate_pricing [] [⟨1, "m", "pw", "moderator", 0, 0⟩] [⟨30, 5/2⟩] "P"
      5 30 ⟨"moderator", "m", some 1⟩ 0 (fun _ => "X")).1 1
    ⟨1, "m", "pw", "moderator", 0, 0⟩ rfl rfl rfl

/-- C10: `generateKeys` applies the moderator's debt increment before the
batch insert; on a run whose `insertMany` fails, the error propagates with no
keys inserted while the requester's stored debt has already grown by
`count * price` — the charge is not rolled back. -/
theorem c10_insert_failure_keeps_charge (keys : List KeyRecord)
    (users : List UserRecord) (prices : List PriceRecord) (kp : String)
    (count validityDays : Nat) (user : GenUser) (now : Nat)
    (rand : Nat → String) (uid : Nat) (u : UserRecord)
    (hrole : user.role = "moderator") (huid : user.userId = some uid)
    (hu : users.find? (fun x => x.id = uid) = some u) :
    (generateKeysRun false keys users prices kp count validityDays user now
        rand).1 = .error ()
    ∧ (generateKeysRun false keys users prices kp count validityDays user now
        rand).2.1 = keys
    ∧ (generateKeysRun false keys users prices kp count validityDays user now
        rand).2.2.find? (fun x => x.id = uid) =
      some { u with
             debt := u.debt + (count : Rat) * priceFor prices validityDays } := by
  have hcharge : generateKeysCharge users prices count validityDays user =
      (priceFor prices validityDays,
       (updateOne users (fun x => x.id = uid)
          (fun x => { x with
            debt := x.debt + (count : Rat) * priceFor prices validityDays })).store) := by
    unfold generateKeysCharge
    rw [if_pos hrole, huid]
  refine ⟨by simp [generateKeysRun], by simp [generateKeysRun], ?_⟩
  simp only [generateKeysRun, hcharge, Bool.false_eq_true, if_false]
  exact updateOne_find?_of_find?_some users (fun x => x.id = uid)
    (fun x => { x with
      debt := x.debt + (count : Rat) * priceFor prices validityDays })
    (fun a ha => ha) u hu

/-- C10 (witness): with the insert failing, the moderator's debt is already
`0 + 5 * (5/2)` although the key store is unchanged. -/
theorem c10_insert_failure_keeps_charge_witness :
    (generateKeysRun false [] [⟨1, "m", "pw", "moderator", 0, 0⟩] [⟨30, 5/2⟩]
        "P" 5 30 ⟨"moderator", "m", some 1⟩ 0 (fun _ => "X")).1 = .error ()
    ∧ (generateKeysRun false [] [⟨1, "m", "pw", "moderator", 0, 0⟩] [⟨30, 5/2⟩]
        "P" 5 30 ⟨"moderator", "m", some 1⟩ 0 (fun _ => "X")).2.1 = []
    ∧ (generateKeysRun false [] [⟨1, "m", "pw", "moderator", 0, 0⟩] [⟨30, 5/2⟩]
        "P" 5 30 ⟨"moderator", "m", some 1⟩ 0 (fun _ => "X")).2.2.find?
        (fun x => x.id = 1) =
      some { (⟨1, "m", "pw", "moderator", 0, 0⟩ : UserRecord) with
             debt := (⟨1, "m", "pw", "moderator", 0, 0⟩ : UserRecord).debt +
               ((5 : Nat) : Rat) * priceFor [⟨30, 5/2⟩] 30 } :=
  c10_insert_failure_keeps_charge [] [⟨1, "m", "pw", "moderator", 0, 0⟩]
    [⟨30, 5/2⟩] "P" 5 30 ⟨"moderator", "m", some 1⟩ 0 (fun _ => "X") 1
    ⟨1, "m", "pw", "moderator", 0, 0⟩ rfl rfl rfl

/-- C8: `deleteKeysByPrefix(P)` removes exactly the key records whose
`prefix` field equals `P` (exact equality, no substring matching), always
reports success, and its message carries the number removed — a zero-match
call is the same non-error outcome with count 0. -/
theorem c8_delete_by_prefix_exact (keys : List KeyRecord) (p : String) :
    (∀ r : KeyRecord, r ∈ ( deleteKeysByPrefix keys p).2 ↔
        r ∈ keys ∧ ¬(r.keyPrefix = p))
    ∧ ( deleteKeysByPrefix keys p).1.success = true
    ∧ ( deleteKeysByPrefix keys p).1.message =
        toString (keys.countP (fun r => r.keyPrefix = p)) ++
          " keys with prefix \"" ++ p ++ "\" deleted." := by
  refine ⟨?_, rfl, ?_⟩
  · intro r
    simp [deleteKeysByPrefix, deleteMany, List.mem_filter]
  · simp [deleteKeysByPrefix, deleteMany, List.countP_eq_length_filter]

/-- C9: deleting a stored moderator removes their account record and every
key whose `createdBy` equals their username; keys created by anyone else are
left untouched (the key store afterwards is exactly the original filtered on
`createdBy ≠ username`). -/
theorem c9_delete_moderator_cascade (users : List UserRecord)
    (keys : List KeyRecord) (id : Nat) (m : UserRecord)
    (hfind : users.find? (fun u => u.id = id) = some m)
    (huniq : users.countP (fun u => u.id = id) = 1) :
    (deleteModerator users keys id).1.success = true
    ∧ (deleteModerator users keys id).2.2 =
        keys.filter (fun r => !(r.createdBy = m.username))
    ∧ (deleteModerator users keys id).2.1 =
        users.filter (fun u => !(u.id = id)) := by
  have hdc := deleteOne_count_of_find?_some users (fun u => u.id = id) m hfind
  have hstore := deleteOne_store_of_countP_one users (fun u => u.id = id) huniq
  simp only [deleteModerator, hfind, deleteMany, hdc, if_pos rfl]
  exact ⟨rfl, rfl, hstore⟩

/-- C9 (witness): deleting moderator "alice" removes her account and her key
while "bob"'s key and account survive. -/
theorem c9_delete_moderator_cascade_witness :
    (deleteModerator
        [⟨1, "alice", "pw", "moderator", 0, 0⟩, ⟨2, "bob", "pw", "moderator", 0, 0⟩]
        [⟨"A-1", "A", 30, 0, none, none, false, 0, "alice"⟩,
         ⟨"B-1", "B", 30, 0, none, none, false, 0, "bob"⟩] 1).1.success = true
    ∧ (deleteModerator
        [⟨1, "alice", "pw", "moderator", 0, 0⟩, ⟨2, "bob", "pw", "moderator", 0, 0⟩]
        [⟨"A-1", "A", 30, 0, none, none, false, 0, "alice"⟩,
         ⟨"B-1", "B", 30, 0, none, none, false, 0, "bob"⟩] 1).2.2 =
      ([⟨"A-1", "A", 30, 0, none, none, false, 0, "alice"⟩,
        ⟨"B-1", "B", 30, 0, none, none, false, 0, "bob"⟩] :
          List KeyRecord).filter (fun r => !(r.createdBy = "alice"))
    ∧ (deleteModerator
        [⟨1, "alice", "pw", "moderator", 0, 0⟩, ⟨2, "bob", "pw", "moderator", 0, 0⟩]
        [⟨"A-1", "A", 30, 0, none, none, false, 0, "alice"⟩,
         ⟨"B-1", "B", 30, 0, none, none, false, 0, "bob"⟩] 1).2.1 =
      ([⟨1, "alice", "pw", "moderator", 0, 0⟩, ⟨2, "bob", "pw", "moderator", 0, 0⟩] :
          List UserRecord).filter (fun u => !(u.id = 1)) :=
  c9_delete_moderator_cascade
    [⟨1, "alice", "pw", "moderator", 0, 0⟩, ⟨2, "bob", "pw", "moderator", 0, 0⟩]
    [⟨"A-1", "A", 30, 0, none, none, false, 0, "alice"⟩,
     ⟨"B-1", "B", 30, 0, none, none, false, 0, "bob"⟩] 1
    ⟨1, "alice", "pw", "moderator", 0, 0⟩ rfl rfl

/-- C6 (counterexample): the claim says `upsertPrices` returns the count of
entries applied.  The action's return value is the same fixed
`{ success: true, message: "Prices updated successfully." }` for an input
applying one entry as for an input applying none, so the return does not
carry the applied count. -/
theorem c6_count_not_reported_counterexample :
    (updateAllPrices [] [⟨"price-30", some 30, some 1⟩]).1 =
      (updateAllPrices [] []).1
    ∧ updateAllPricesApplied [⟨"price-30", some 30, some 1⟩] = 1
    ∧ updateAllPricesApplied [] = 0 := by
  exact ⟨rfl, rfl, rfl⟩

theorem lookupPrice_upsertPrice (ps : List PriceRecord) (d' d : Nat) (q : Rat) :
    lookupPrice (upsertPrice ps d' q) d =
      if d' = d then some q else lookupPrice ps d := by
  unfold upsertPrice
  cases hf : ps.find? (fun r => r.validityDays = d') with
  | some r =>
    by_cases hd : d' = d
    · subst hd
      rw [if_pos rfl]
      unfold lookupPrice
      rw [updateOne_find?_of_find?_some ps (fun x => x.validityDays = d')
        (fun x => { x with price := q }) (fun a ha => ha) r hf]
      rfl
    · rw [if_neg hd]
      unfold lookupPrice
      rw [updateOne_find?_of_disjoint ps (fun x => x.validityDays = d')
        (fun x => x.validityDays = d) (fun x => { x with price := q })
        (fun a => rfl) ?hpq]
      case hpq =>
        intro a ha
        simp only [decide_eq_true_eq] at ha
        simp [ha, hd]
  | none =>
    by_cases hd : d' = d
    · subst hd
      rw [if_pos rfl]
      unfold lookupPrice
      rw [List.find?_append, hf]
      simp
    · rw [if_neg hd]
      unfold lookupPrice
      rw [List.find?_append]
      cases hx : ps.find? (fun r => r.validityDays = d) with
      | some r => simp [hx]
      | none => simp [hx, hd]

theorem lookupPrice_foldl_upserts (ops : List (Nat × Rat))
    (ps : List PriceRecord) (d : Nat) :
    lookupPrice (ops.foldl (fun s op => upsertPrice s op.1 op.2) ps) d =
      ops.foldl (fun acc op => if op.1 = d then some op.2 else acc)
        (lookupPrice ps d) := by
  induction ops generalizing ps with
  | nil => rfl
  | cons a ops ih =>
    simp only [List.foldl_cons]
    rw [ih, lookupPrice_upsertPrice]

theorem foldl_upsert_last_wins (ops : List (Nat × Rat)) (d : Nat)
    (x : Option Rat) :
    ops.foldl (fun acc op => if op.1 = d then some op.2 else acc) x =
      (ops.foldl (fun acc op => if op.1 = d then some op.2 else acc) none).or
        x := by
  induction ops generalizing x with
  | nil => rfl
  | cons a ops ih =>
    simp only [List.foldl_cons]
    rw [ih, ih (if a.1 = d then some a.2 else none)]
    cases hfold : ops.foldl (fun acc op => if op.1 = d then some op.2 else acc)
        none with
    | some v => rfl
    | none =>
      by_cases ha : a.1 = d
      · simp [ha]
      · simp [ha]

/-- C6 (amended): `updateAllPrices` skips every entry whose field name is not
`price-*`, whose parses fail, or whose price is negative, without failing the
whole operation; it creates or overwrites the tier price for every valid
entry (last write wins per tier, other tiers untouched); and it returns a
fixed success message that does not include the count applied. -/
theorem c6_upsert_semantics (prices : List PriceRecord)
    (entries : List PriceFormEntry) (d : Nat) :
    (updateAllPrices prices entries).1 =
      ⟨true, "Prices updated successfully."⟩
    ∧ lookupPrice (updateAllPrices prices entries).2 d =
        (lastValidPriceFor entries d).or (lookupPrice prices d) := by
  refine ⟨rfl, ?_⟩
  simp only [updateAllPrices, lastValidPriceFor]
  rw [lookupPrice_foldl_upserts, foldl_upsert_last_wins]
